import Mathlib

/-!
Shallow embedding of the giscus configuration component
(src/components/Configuration.tsx) and of its debounce utility.

The component keeps seven pieces of React state (repository, repositoryId,
categoryId, error, categories, mapping, term) plus the debounced repository
value `dRepository` produced by `useDebounce`.  A `useEffect` keyed on
`dRepository` clears error/repositoryId/categoryId/categories and, when the
debounced value is non-empty, issues an asynchronous `getCategories` lookup
whose `.then` handler stores `repositoryId`/`categories` and whose `.catch`
handler sets `error`.  The effect installs no cleanup and captures no epoch
token, so a lookup issued for an earlier identifier still applies its result
when it eventually resolves.

We model the component as an event-driven state machine: every DOM event
(typing, a debounce emission, a category selection, a mapping radio change,
a term edit) and every promise resolution is a discrete event, matching the
single-threaded event-loop execution of the code.  The set of outstanding
`getCategories` promises is tracked in `pending` (in issue order).
-/

namespace Giscus

/-- A discussion category as returned by `getCategories`
(`ICategory`: id, emoji, name). -/
structure Category where
  id : String
  emoji : String
  name : String
deriving DecidableEq, Repr

/-- The `DirectConfig` props record: theme name and the reactions toggle. -/
structure DirectConfig where
  theme : String
  reactionsEnabled : Bool
deriving DecidableEq, Repr

/-- The seven `useState` fields of the `Configuration` component. -/
structure ConfigState where
  repository : String
  repositoryId : String
  categoryId : String
  error : Bool
  categories : List Category
  mapping : String
  term : String
deriving DecidableEq, Repr

/-- The full machine state: the component state, the current debounced
repository value (`dRepository`), and the identifiers of the in-flight
`getCategories` calls, in issue order. -/
structure MachineState where
  cfg : ConfigState
  dRep : String
  pending : List String
deriving DecidableEq, Repr

/-- The `value` fields of `mappingOptions` (the mapping radio buttons). -/
def mappingValues : List String :=
  ["pathname", "url", "title", "og:title", "specific", "number"]

/-- Discrete events driving the component: DOM events and promise
resolutions.  `settle d` is the debounced value changing to `d` (which
re-runs the `useEffect`); `resolveOk`/`resolveErr` are the `.then`/`.catch`
handlers of an outstanding `getCategories d` promise firing. -/
inductive Event where
  | typeRepository (v : String)
  | settle (d : String)
  | resolveOk (d : String) (rid : String) (cats : List Category)
  | resolveErr (d : String)
  | selectCategory (i : String)
  | chooseMapping (v : String)
  | inputTerm (v : String)
deriving DecidableEq, Repr

/-- One transition of the component.  `none` means the event cannot occur
in that state (a promise that is not outstanding cannot resolve; the
category select is disabled while `categories` is empty and only offers the
ids of the current categories; the mapping radios only carry the six
`mappingOptions` values; the term input is only rendered under the
`specific` and `number` mappings; the effect only re-runs when the
debounced value actually changes). -/
def step (s : MachineState) : Event → Option MachineState
  | .typeRepository v =>
      some { s with cfg := { s.cfg with repository := v } }
  | .settle d =>
      if d = s.dRep then none
      else
        some { cfg := { s.cfg with error := false, repositoryId := "",
                                   categoryId := "", categories := [] },
               dRep := d,
               pending := if d = "" then s.pending else s.pending ++ [d] }
  | .resolveOk d rid cats =>
      if d ∈ s.pending then
        some { s with
               cfg := { s.cfg with repositoryId := rid, categories := cats },
               pending := s.pending.erase d }
      else none
  | .resolveErr d =>
      if d ∈ s.pending then
        some { s with
               cfg := { s.cfg with error := true },
               pending := s.pending.erase d }
      else none
  | .selectCategory i =>
      if s.cfg.categories ≠ [] ∧ i ∈ s.cfg.categories.map Category.id then
        some { s with cfg := { s.cfg with categoryId := i } }
      else none
  | .chooseMapping v =>
      if v ∈ mappingValues then
        some { s with cfg := { s.cfg with term := "", mapping := v } }
      else none
  | .inputTerm v =>
      if s.cfg.mapping = "specific" ∨ s.cfg.mapping = "number" then
        some { s with cfg := { s.cfg with term := v } }
      else none

/-- The initial component state: all strings empty, no error, no
categories, mapping `pathname`, nothing pending. -/
def initState : MachineState :=
  { cfg := { repository := "", repositoryId := "", categoryId := "",
             error := false, categories := [], mapping := "pathname", term := "" },
    dRep := "", pending := [] }

/-- Run a list of events from a state, failing when an event is not
enabled. -/
def runTrace (s : MachineState) : List Event → Option MachineState
  | [] => some s
  | e :: es =>
      match step s e with
      | some s' => runTrace s' es
      | none => none

/-- A state is reachable when some sequence of events leads to it from the
initial state. -/
inductive Reachable : MachineState → Prop
  | init : Reachable initState
  | next {s s' : MachineState} {e : Event} :
      Reachable s → step s e = some s' → Reachable s'

/-- The four validator states of the spec, as displayed by the component. -/
inductive VState where
  | Idle
  | Pending
  | Success
  | Error
deriving DecidableEq, Repr

/-- The validator state displayed by the repository fieldset, read off the
JSX conditions: `error || (repositoryId && !categories.length)` shows the
failure message, `repositoryId && categories.length` shows the success
message, and otherwise a spinner is shown exactly when
`!error && !repositoryId && dRepository`. -/
def validatorState (s : MachineState) : VState :=
  if s.cfg.error = true ∨ (s.cfg.repositoryId ≠ "" ∧ s.cfg.categories = []) then
    .Error
  else if s.cfg.repositoryId ≠ "" ∧ s.cfg.categories ≠ [] then
    .Success
  else if s.dRep ≠ "" then
    .Pending
  else
    .Idle

/-- JSX `{value || 'placeholder'}`: an empty string is falsy, so the
placeholder is rendered instead. -/
def orPlaceholder (v d : String) : String :=
  if v = "" then d else v

/-- The attribute lines of the embed snippet, in render order, as
(name, value) pairs; `none` is a valueless attribute (`async`).  Read off
the `<pre>` block: `data-repo`, `data-repo-id` and `data-category-id` fall
back to bracketed placeholders, the `data-term` line is rendered only when
the mapping is `specific` or `number`, reactions render as `Number(bool)`,
and `crossorigin="anonymous"` and `async` are fixed literals. -/
def snippetAttrs (c : ConfigState) (dc : DirectConfig) :
    List (String × Option String) :=
  [("data-repo", some (orPlaceholder c.repository "[ENTER REPO HERE]")),
   ("data-repo-id", some (orPlaceholder c.repositoryId "[ENTER REPO ID HERE]")),
   ("data-category-id",
     some (orPlaceholder c.categoryId "[ENTER CATEGORY ID HERE]")),
   ("data-mapping", some c.mapping)] ++
  (if c.mapping = "specific" ∨ c.mapping = "number" then
    [("data-term", some (orPlaceholder c.term "[ENTER TERM HERE]"))]
  else []) ++
  [("data-reactions-enabled", some (if dc.reactionsEnabled then "1" else "0")),
   ("data-theme", some dc.theme),
   ("crossorigin", some "anonymous"),
   ("async", none)]

/-- Modelled from the spec: the debounce hook `useDebounce`
(imported from `src/lib/hooks`, not included under `src/`) delays a stream
of timed updates and emits a settled value only after no new update has
arrived for the full quiescence interval `D`; every earlier update cancels
the previously scheduled emission.  Updates are (time, value) pairs in
arrival order; emissions are (time, value) pairs. -/
def debounceEmissions {α : Type} (D : Nat) : List (Nat × α) → List (Nat × α)
  | [] => []
  | [u] => [(u.1 + D, u.2)]
  | u :: u' :: rest =>
      if u'.1 < u.1 + D then debounceEmissions D (u' :: rest)
      else (u.1 + D, u.2) :: debounceEmissions D (u' :: rest)

/-- Any state produced by running a trace from a reachable state is
reachable. -/
theorem reachable_runTrace {s s' : MachineState} {es : List Event}
    (hs : Reachable s) (h : runTrace s es = some s') : Reachable s' := by
  induction es generalizing s with
  | nil =>
      simp only [runTrace, Option.some.injEq] at h
      exact h ▸ hs
  | cons e es ih =>
      simp only [runTrace] at h
      cases hst : step s e with
      | none => rw [hst] at h; exact absurd h (by simp)
      | some t => rw [hst] at h; exact ih (Reachable.next hs hst) h

/-- The event trace of the stale-lookup race: a lookup is issued for
`octo/a`, then `octo/b` settles (clearing the state and issuing a second
lookup), and only then does the `octo/a` lookup resolve. -/
def staleTrace : List Event :=
  [Event.settle "octo/a", Event.settle "octo/b",
   Event.resolveOk "octo/a" "R_A" [⟨"DIC_A", "x", "General"⟩]]

/-- C1: the claim fails on the code.  After `staleTrace` the component state
carries identifier A's result (`repositoryId = "R_A"`, A's categories, a
Success display) even though identifier B's lookup is still in flight: the
effect has no cleanup or epoch check, so the stale `.then` handler still
runs.  The claim requires the state to still reflect B's in-flight state. -/
theorem stale_result_applied :
    (runTrace initState staleTrace).map
      (fun s => (s.cfg.repositoryId, s.cfg.categories, s.pending, validatorState s)) =
      some ("R_A", [⟨"DIC_A", "x", "General"⟩], ["octo/b"], VState.Success) := by
  rfl

/-- The state reached by the race trace that breaks the category-id
invariant: a category chosen from stale categories survives the late
arrival of the newer lookup's result. -/
def invariantBreakState : MachineState :=
  { cfg := { repository := "octo/b", repositoryId := "R_B", categoryId := "DIC_A",
             error := false, categories := [⟨"DIC_B", "x", "Ideas"⟩],
             mapping := "pathname", term := "" },
    dRep := "octo/b", pending := [] }

/-- C3: the claim fails on the code.  A reachable state exists whose
selected category id is non-empty and not the id of any currently stored
category: after the stale `octo/a` result is applied the user picks
`DIC_A`, and when the `octo/b` result then arrives the code replaces
`categories` without resetting `categoryId`. -/
theorem categoryId_not_in_categories :
    ∃ s : MachineState, Reachable s ∧ s.cfg.categoryId ≠ "" ∧
      s.cfg.categoryId ∉ s.cfg.categories.map Category.id := by
  have hrun : runTrace initState
      [Event.typeRepository "octo/a", Event.settle "octo/a",
       Event.typeRepository "octo/b", Event.settle "octo/b",
       Event.resolveOk "octo/a" "R_A" [⟨"DIC_A", "x", "General"⟩],
       Event.selectCategory "DIC_A",
       Event.resolveOk "octo/b" "R_B" [⟨"DIC_B", "x", "Ideas"⟩]] =
      some invariantBreakState := by rfl
  exact ⟨invariantBreakState, reachable_runTrace Reachable.init hrun,
    by decide, by decide⟩

/-- C2: whenever the settled identifier changes to a non-empty value (which
starts a new lookup, entering Pending), the effect eagerly clears
repositoryId, categoryId and categories (and the error flag) before any
result of the new lookup is applied; the new lookup is merely pending. -/
theorem pending_entry_clears_state (s : MachineState) (d : String)
    (h1 : d ≠ "") (h2 : d ≠ s.dRep) :
    ∃ s', step s (Event.settle d) = some s' ∧
      s'.cfg.repositoryId = "" ∧ s'.cfg.categoryId = "" ∧
      s'.cfg.categories = [] ∧ s'.cfg.error = false ∧
      s'.pending = s.pending ++ [d] ∧ validatorState s' = VState.Pending := by
  refine ⟨{ cfg := { s.cfg with error := false, repositoryId := "",
                                categoryId := "", categories := [] },
            dRep := d, pending := s.pending ++ [d] },
          ?_, rfl, rfl, rfl, rfl, rfl, ?_⟩
  · simp [step, h1, h2]
  · simp [validatorState, h1]

/-- Witness for C2 at the initial state and identifier `octo/demo`. -/
theorem pending_entry_clears_state_witness :
    ∃ s', step initState (Event.settle "octo/demo") = some s' ∧
      s'.cfg.repositoryId = "" ∧ s'.cfg.categoryId = "" ∧
      s'.cfg.categories = [] ∧ s'.cfg.error = false ∧
      s'.pending = initState.pending ++ ["octo/demo"] ∧
      validatorState s' = VState.Pending :=
  pending_entry_clears_state initState "octo/demo" (by decide) (by decide)

/-- A state with one lookup in flight for `octo/demo`, used to instantiate
theorems whose hypotheses need a pending lookup. -/
def pendingOne : MachineState :=
  { initState with dRep := "octo/demo", pending := ["octo/demo"] }

/-- C10: when the settled identifier becomes empty, the effect issues no
lookup (the pending set is unchanged) and fully resets the validator:
error cleared, repositoryId, categoryId and categories emptied, and the
displayed state is Idle. -/
theorem empty_identifier_resets (s : MachineState) (h : s.dRep ≠ "") :
    ∃ s', step s (Event.settle "") = some s' ∧ s'.pending = s.pending ∧
      s'.cfg.error = false ∧ s'.cfg.repositoryId = "" ∧
      s'.cfg.categoryId = "" ∧ s'.cfg.categories = [] ∧
      validatorState s' = VState.Idle := by
  refine ⟨{ cfg := { s.cfg with error := false, repositoryId := "",
                                categoryId := "", categories := [] },
            dRep := "", pending := s.pending },
          ?_, rfl, rfl, rfl, rfl, rfl, ?_⟩
  · simp [step, Ne.symm h]
  · simp [validatorState]

/-- Witness for C10 at a state with a pending lookup and settled
identifier `octo/demo`. -/
theorem empty_identifier_resets_witness :
    ∃ s', step pendingOne (Event.settle "") = some s' ∧
      s'.pending = pendingOne.pending ∧
      s'.cfg.error = false ∧ s'.cfg.repositoryId = "" ∧
      s'.cfg.categoryId = "" ∧ s'.cfg.categories = [] ∧
      validatorState s' = VState.Idle :=
  empty_identifier_resets pendingOne (by decide)

/-- C4: a lookup that succeeds but returns an empty category list leaves
the validator in the Error display state (the condition
`error || (repositoryId && !categories.length)` fires), not Success.  The
repository id returned by a successful lookup is a non-empty opaque id. -/
theorem empty_categories_is_error (s s' : MachineState) (d rid : String)
    (hrid : rid ≠ "")
    (h : step s (Event.resolveOk d rid []) = some s') :
    validatorState s' = VState.Error ∧ validatorState s' ≠ VState.Success := by
  simp only [step] at h
  by_cases hd : d ∈ s.pending
  · rw [if_pos hd] at h
    cases h
    constructor
    · simp [validatorState, hrid]
    · simp [validatorState, hrid]
  · rw [if_neg hd] at h
    cases h

/-- The state after the pending `octo/demo` lookup succeeds with
repository id `R_X` and zero categories. -/
def zeroCatState : MachineState :=
  { pendingOne with
    cfg := { pendingOne.cfg with repositoryId := "R_X", categories := [] },
    pending := [] }

/-- Witness for C4: the pending `octo/demo` lookup resolves with zero
categories and the display is Error, not Success. -/
theorem empty_categories_is_error_witness :
    validatorState zeroCatState = VState.Error ∧
      validatorState zeroCatState ≠ VState.Success :=
  empty_categories_is_error pendingOne zeroCatState "octo/demo" "R_X"
    (by decide) (by rfl)

/-- C5: the mapping radio `onChange` handler always runs `setTerm('')`
before `setMapping`, for every choice (including re-choosing the current
mapping); in particular entering `42` under mapping `number` and then
choosing `pathname` followed by `number` again leaves the term empty. -/
theorem setMapping_clears_term :
    (∀ (s : MachineState) (v : String), v ∈ mappingValues →
      ∃ s', step s (Event.chooseMapping v) = some s' ∧
        s'.cfg.term = "" ∧ s'.cfg.mapping = v) ∧
    (runTrace initState
      [Event.chooseMapping "number", Event.inputTerm "42",
       Event.chooseMapping "pathname", Event.chooseMapping "number"]).map
      (fun s => s.cfg.term) = some "" := by
  constructor
  · intro s v hv
    refine ⟨{ s with cfg := { s.cfg with term := "", mapping := v } }, ?_, rfl, rfl⟩
    simp [step, hv]
  · rfl

/-- Witness for C5 at the initial state and choice `url`. -/
theorem setMapping_clears_term_witness :
    ∃ s', step initState (Event.chooseMapping "url") = some s' ∧
      s'.cfg.term = "" ∧ s'.cfg.mapping = "url" :=
  setMapping_clears_term.1 initState "url" (by decide)

/-- C8: every failure of an outstanding lookup is handled by the `.catch`
handler — the transition is defined and only sets the error flag, putting
the validator in the Error state — and no step issues a new lookup except
a settle event carrying a new non-empty identifier. -/
theorem failures_contained_no_retry :
    (∀ (s : MachineState) (d : String), d ∈ s.pending →
      ∃ s', step s (Event.resolveErr d) = some s' ∧ s'.cfg.error = true ∧
        validatorState s' = VState.Error) ∧
    (∀ (s s' : MachineState) (e : Event), step s e = some s' →
      s'.pending.length ≤ s.pending.length ∨
        ∃ v, e = Event.settle v ∧ v ≠ "" ∧ v ≠ s.dRep) := by
  constructor
  · intro s d hd
    refine ⟨{ s with cfg := { s.cfg with error := true },
                     pending := s.pending.erase d }, ?_, rfl, ?_⟩
    · simp [step, hd]
    · simp [validatorState]
  · intro s s' e h
    cases e with
    | typeRepository v =>
        left; cases h; simp
    | settle v =>
        simp only [step] at h
        by_cases hv : v = s.dRep
        · rw [if_pos hv] at h; cases h
        · rw [if_neg hv] at h
          by_cases hv0 : v = ""
          · left; cases h; simp [hv0]
          · right; exact ⟨v, rfl, hv0, hv⟩
    | resolveOk d rid cats =>
        left
        simp only [step] at h
        by_cases hd : d ∈ s.pending
        · rw [if_pos hd] at h; cases h
          exact (List.erase_sublist d s.pending).length_le
        · rw [if_neg hd] at h; cases h
    | resolveErr d =>
        left
        simp only [step] at h
        by_cases hd : d ∈ s.pending
        · rw [if_pos hd] at h; cases h
          exact (List.erase_sublist d s.pending).length_le
        · rw [if_neg hd] at h; cases h
    | selectCategory i =>
        left
        simp only [step] at h
        by_cases hi : s.cfg.categories ≠ [] ∧ i ∈ s.cfg.categories.map Category.id
        · rw [if_pos hi] at h; cases h; simp
        · rw [if_neg hi] at h; cases h
    | chooseMapping v =>
        left
        simp only [step] at h
        by_cases hv : v ∈ mappingValues
        · rw [if_pos hv] at h; cases h; simp
        · rw [if_neg hv] at h; cases h
    | inputTerm v =>
        left
        simp only [step] at h
        by_cases hm : s.cfg.mapping = "specific" ∨ s.cfg.mapping = "number"
        · rw [if_pos hm] at h; cases h; simp
        · rw [if_neg hm] at h; cases h

/-- Witness for C8: the pending `octo/demo` lookup fails and the validator
shows Error. -/
theorem failures_contained_no_retry_witness :
    ∃ s', step pendingOne (Event.resolveErr "octo/demo") = some s' ∧
      s'.cfg.error = true ∧ validatorState s' = VState.Error :=
  failures_contained_no_retry.1 pendingOne "octo/demo" (by decide)

/-- C6: the snippet has a `data-term` attribute line exactly when the
mapping is `specific` or `number`; for every other mapping the line is
absent from the rendered attributes altogether. -/
theorem term_line_iff_mapping (c : ConfigState) (dc : DirectConfig) :
    "data-term" ∈ (snippetAttrs c dc).map Prod.fst ↔
      (c.mapping = "specific" ∨ c.mapping = "number") := by
  by_cases h : c.mapping = "specific" ∨ c.mapping = "number"
  · simp [snippetAttrs, h]
  · simp [snippetAttrs, h]

/-- The `{value || 'placeholder'}` fallback never renders an empty string
when the placeholder itself is non-empty. -/
theorem orPlaceholder_ne_empty (v d : String) (hd : d ≠ "") :
    orPlaceholder v d ≠ "" := by
  unfold orPlaceholder
  split
  · exact hd
  · assumption

/-- C7: every unresolved field renders in the snippet as its distinct
bracketed placeholder (repo, repo id, category id, and — when the mapping
requires a term — term), and none of those four attributes ever carries an
empty-string value. -/
theorem unresolved_fields_placeholder (c : ConfigState) (dc : DirectConfig) :
    (c.repository = "" →
      ("data-repo", some "[ENTER REPO HERE]") ∈ snippetAttrs c dc) ∧
    (c.repositoryId = "" →
      ("data-repo-id", some "[ENTER REPO ID HERE]") ∈ snippetAttrs c dc) ∧
    (c.categoryId = "" →
      ("data-category-id", some "[ENTER CATEGORY ID HERE]") ∈ snippetAttrs c dc) ∧
    ((c.mapping = "specific" ∨ c.mapping = "number") → c.term = "" →
      ("data-term", some "[ENTER TERM HERE]") ∈ snippetAttrs c dc) ∧
    (∀ v : String, ("data-repo", some v) ∈ snippetAttrs c dc → v ≠ "") ∧
    (∀ v : String, ("data-repo-id", some v) ∈ snippetAttrs c dc → v ≠ "") ∧
    (∀ v : String, ("data-category-id", some v) ∈ snippetAttrs c dc → v ≠ "") ∧
    (∀ v : String, ("data-term", some v) ∈ snippetAttrs c dc → v ≠ "") := by
  refine ⟨?_, ?_, ?_, ?_, ?_, ?_, ?_, ?_⟩
  · intro h; simp [snippetAttrs, orPlaceholder, h]
  · intro h; simp [snippetAttrs, orPlaceholder, h]
  · intro h; simp [snippetAttrs, orPlaceholder, h]
  · intro hm ht; simp [snippetAttrs, orPlaceholder, hm, ht]
  · intro v hv
    by_cases hm : c.mapping = "specific" ∨ c.mapping = "number" <;>
      simp [snippetAttrs, hm] at hv <;>
      exact hv ▸ orPlaceholder_ne_empty _ _ (by decide)
  · intro v hv
    by_cases hm : c.mapping = "specific" ∨ c.mapping = "number" <;>
      simp [snippetAttrs, hm] at hv <;>
      exact hv ▸ orPlaceholder_ne_empty _ _ (by decide)
  · intro v hv
    by_cases hm : c.mapping = "specific" ∨ c.mapping = "number" <;>
      simp [snippetAttrs, hm] at hv <;>
      exact hv ▸ orPlaceholder_ne_empty _ _ (by decide)
  · intro v hv
    by_cases hm : c.mapping = "specific" ∨ c.mapping = "number"
    · simp [snippetAttrs, hm] at hv
      exact hv ▸ orPlaceholder_ne_empty _ _ (by decide)
    · simp [snippetAttrs, hm] at hv

/-- An all-empty configuration under the `specific` mapping. -/
def emptySpecificCfg : ConfigState :=
  { repository := "", repositoryId := "", categoryId := "", error := false,
    categories := [], mapping := "specific", term := "" }

/-- A sample direct configuration. -/
def dcSample : DirectConfig := { theme := "light", reactionsEnabled := true }

/-- Witness for C7: with every field empty under mapping `specific`, the
repo and term attributes carry their placeholders. -/
theorem unresolved_fields_placeholder_witness :
    ("data-repo", some "[ENTER REPO HERE]") ∈
      snippetAttrs emptySpecificCfg dcSample ∧
    ("data-term", some "[ENTER TERM HERE]") ∈
      snippetAttrs emptySpecificCfg dcSample :=
  ⟨(unresolved_fields_placeholder emptySpecificCfg dcSample).1 rfl,
   (unresolved_fields_placeholder emptySpecificCfg dcSample).2.2.2.1
     (Or.inl rfl) rfl⟩

/-- C9: when every update in a sequence arrives strictly less than the
quiescence interval after the previous one, the debouncer emits exactly
one settled value — the final update's value — and only at the final
update's time plus the full interval. -/
theorem debounce_coalesces {α : Type} (D : Nat) (u : Nat × α)
    (rest : List (Nat × α))
    (h : List.Chain (fun a b => b.1 < a.1 + D) u rest) :
    debounceEmissions D (u :: rest) =
      [(((u :: rest).getLast (List.cons_ne_nil u rest)).1 + D,
        ((u :: rest).getLast (List.cons_ne_nil u rest)).2)] := by
  induction rest generalizing u with
  | nil => simp [debounceEmissions]
  | cons u' rest ih =>
      cases h with
      | cons hlt hchain =>
        simp only [debounceEmissions, if_pos hlt]
        rw [ih u' hchain]
        simp [List.getLast_cons]

/-- Witness for C9: updates `a`, `ab`, `abc` at times 0, 1, 2 with a
500-unit interval produce the single settled emission `abc` at time 502. -/
theorem debounce_coalesces_witness :
    debounceEmissions 500 [(0, "a"), (1, "ab"), (2, "abc")] = [(502, "abc")] := by
  have h := debounce_coalesces 500 (0, "a") [(1, "ab"), (2, "abc")]
    (List.Chain.cons (by decide) (List.Chain.cons (by decide) List.Chain.nil))
  simpa using h

end Giscus
